import Mathlib

/-!
Verification of the SDF scene evaluator of simpleCudaRayMarcher
(src/sdf_util.hpp), shallowly embedded over the real numbers.

The embedding mirrors the source closely: float3 becomes Vec3 (a triple of
reals), the cutil_math helpers dot and length become dot and length, the C
function fmodf becomes fmodf (truncated remainder), atan2 becomes Complex.arg of the
corresponding complex number, and powf on nonnegative bases becomes real
rpow. Every definition below is translated from the source file except
those explicitly marked as spec renderings for refinement comparison.
-/

namespace SDF

/-- A 3-component real vector, modelling CUDA float3. -/
structure Vec3 where
  x : ℝ
  y : ℝ
  z : ℝ

/-- Componentwise addition, modelling cutil_math operator+. -/
noncomputable def vadd (a b : Vec3) : Vec3 := ⟨a.x + b.x, a.y + b.y, a.z + b.z⟩

/-- Componentwise subtraction, modelling cutil_math operator-. -/
noncomputable def vsub (a b : Vec3) : Vec3 := ⟨a.x - b.x, a.y - b.y, a.z - b.z⟩

/-- Scalar division, modelling cutil_math operator/ with a scalar. -/
noncomputable def vdiv (a : Vec3) (s : ℝ) : Vec3 := ⟨a.x / s, a.y / s, a.z / s⟩

/-- Scalar multiplication, modelling cutil_math operator* with a scalar. -/
noncomputable def vscale (s : ℝ) (a : Vec3) : Vec3 := ⟨s * a.x, s * a.y, s * a.z⟩

/-- Dot product, modelling cutil_math dot. -/
noncomputable def dot (a b : Vec3) : ℝ := a.x * b.x + a.y * b.y + a.z * b.z

/-- Euclidean norm, modelling cutil_math length (sqrtf of dot). -/
noncomputable def length (v : Vec3) : ℝ := Real.sqrt (dot v v)

/-- Truncation toward zero, modelling the rounding used by C fmodf. -/
noncomputable def rtrunc (t : ℝ) : ℤ := if 0 ≤ t then ⌊t⌋ else ⌈t⌉

/-- C fmodf: x - y * trunc(x / y), the truncated (sign-of-x) remainder. -/
noncomputable def fmodf (x y : ℝ) : ℝ := x - y * (rtrunc (x / y) : ℝ)

/-- C atan2(y, x): the principal argument of the complex number x + y i. -/
noncomputable def atan2 (y x : ℝ) : ℝ := Complex.arg ⟨x, y⟩

/-- sdfUnion from src/sdf_util.hpp: min a b. -/
noncomputable def sdfUnion (a b : ℝ) : ℝ := min a b

/-- sdfDifference from src/sdf_util.hpp: max (-a) b. -/
noncomputable def sdfDifference (a b : ℝ) : ℝ := max (-a) b

/-- sdfIntersection from src/sdf_util.hpp: max a b. -/
noncomputable def sdfIntersection (a b : ℝ) : ℝ := max a b

/-- sdfSphere from src/sdf_util.hpp: length pos - radius. -/
noncomputable def sdfSphere (pos : Vec3) (radius : ℝ) : ℝ := length pos - radius

/-- sdfPlane from src/sdf_util.hpp: dot pos n. -/
noncomputable def sdfPlane (pos n : Vec3) : ℝ := dot pos n

/-- The loop of mandelbulb from src/sdf_util.hpp. The state is the triple
(z, dr, r) of the mutable locals in the source; the fuel argument counts the
remaining iterations, and the break statement is modelled by returning the
current state with the freshly computed radius. -/
noncomputable def mbLoop (pos : Vec3) (bail power : ℝ) : ℕ → Vec3 × ℝ × ℝ → Vec3 × ℝ × ℝ
  | 0, s => s
  | n + 1, (z, dr, _) =>
    let r := length z
    if r > bail then (z, dr, r)
    else
      let theta := Real.arcsin (z.z / r)
      let phi := atan2 z.y z.x
      let dr1 := r ^ (power - 1) * power * dr + 1
      let zr := r ^ power
      let theta1 := theta * power
      let phi1 := phi * power
      let z1 := vadd (vscale zr ⟨Real.cos theta1 * Real.cos phi1,
        Real.sin phi1 * Real.cos theta1, Real.sin theta1⟩) pos
      mbLoop pos bail power n (z1, dr1, r)

/-- mandelbulb from src/sdf_util.hpp: run the loop from (pos, 1, 0) and
return 0.5 * log r * r / dr for the final state. -/
noncomputable def mandelbulb (pos : Vec3) (iterations : ℕ) (bail power : ℝ) : ℝ :=
  let s := mbLoop pos bail power iterations (pos, 1, 0)
  0.5 * Real.log s.2.2 * s.2.2 / s.2.1

/-- mandelbulbScene from src/sdf_util.hpp. -/
noncomputable def mandelbulbScene (pos : Vec3) : ℝ :=
  let mb := mandelbulb (vdiv pos 2.3) 8 4 8 * 2.3
  let plane := sdfPlane (vsub pos ⟨0, -2, 0⟩) ⟨0, 1, 0⟩
  sdfUnion mb plane

/-- mandelbulbColor from src/sdf_util.hpp. -/
noncomputable def mandelbulbColor (pos : Vec3) : Vec3 :=
  let mb := mandelbulb (vdiv pos 2.3) 8 4 8 * 2.3
  let plane := sdfPlane (vsub pos ⟨0, -2, 0⟩) ⟨0, 1, 0⟩
  if plane < mb then ⟨0.85, 0.85, 0.85⟩ else ⟨0.85, 1, 0⟩

/-- sphereScene from src/sdf_util.hpp. -/
noncomputable def sphereScene (pos : Vec3) : ℝ :=
  let mod1 : Vec3 := ⟨fmodf pos.x 2 - 1, pos.y + 1.5, fmodf pos.z 2 - 1⟩
  let spheres1 := sdfSphere mod1 0.5
  let mod2 : Vec3 := ⟨-fmodf pos.x 2 - 1, pos.y + 1.5, fmodf pos.z 2 - 1⟩
  let spheres2 := sdfSphere mod2 0.5
  let mod3 : Vec3 := ⟨fmodf pos.x 2 - 1, pos.y + 1.5, -fmodf pos.z 2 - 1⟩
  let spheres3 := sdfSphere mod3 0.5
  let mod4 : Vec3 := ⟨-fmodf pos.x 2 - 1, pos.y + 1.5, -fmodf pos.z 2 - 1⟩
  let spheres4 := sdfSphere mod4 0.5
  let spheres := sdfUnion (sdfUnion (sdfUnion spheres1 spheres2) spheres3) spheres4
  let plane := sdfPlane (vsub pos ⟨0, -2, 0⟩) ⟨0, 1, 0⟩
  sdfUnion spheres plane

/-- sphereColor from src/sdf_util.hpp. -/
noncomputable def sphereColor (pos : Vec3) : Vec3 :=
  let mod1 : Vec3 := ⟨fmodf pos.x 2 - 1, pos.y + 1.5, fmodf pos.z 2 - 1⟩
  let spheres1 := sdfSphere mod1 0.5
  let mod2 : Vec3 := ⟨-fmodf pos.x 2 - 1, pos.y + 1.5, fmodf pos.z 2 - 1⟩
  let spheres2 := sdfSphere mod2 0.5
  let mod3 : Vec3 := ⟨fmodf pos.x 2 - 1, pos.y + 1.5, -fmodf pos.z 2 - 1⟩
  let spheres3 := sdfSphere mod3 0.5
  let mod4 : Vec3 := ⟨-fmodf pos.x 2 - 1, pos.y + 1.5, -fmodf pos.z 2 - 1⟩
  let spheres4 := sdfSphere mod4 0.5
  let spheres := sdfUnion (sdfUnion (sdfUnion spheres1 spheres2) spheres3) spheres4
  let plane := sdfPlane (vsub pos ⟨0, -2, 0⟩) ⟨0, 1, 0⟩
  if plane < spheres then ⟨1, 0.3, 0.1⟩ else ⟨0.85, 0.85, 0.85⟩

/-- The fractal sub-distance used by both mandelbulbScene and
mandelbulbColor: the scale-compensated mandelbulb term. -/
noncomputable def mbFractalTerm (pos : Vec3) : ℝ := mandelbulb (vdiv pos 2.3) 8 4 8 * 2.3

/-- The ground-plane sub-distance shared by all four scene/color
functions: the plane through (0,-2,0) with normal (0,1,0). -/
noncomputable def groundPlaneTerm (pos : Vec3) : ℝ :=
  sdfPlane (vsub pos ⟨0, -2, 0⟩) ⟨0, 1, 0⟩

/-- The combined four-lattice sphere sub-distance used by both
sphereScene and sphereColor. -/
noncomputable def sphereLatticeTerm (pos : Vec3) : ℝ :=
  sdfUnion (sdfUnion (sdfUnion
    (sdfSphere ⟨fmodf pos.x 2 - 1, pos.y + 1.5, fmodf pos.z 2 - 1⟩ 0.5)
    (sdfSphere ⟨-fmodf pos.x 2 - 1, pos.y + 1.5, fmodf pos.z 2 - 1⟩ 0.5))
    (sdfSphere ⟨fmodf pos.x 2 - 1, pos.y + 1.5, -fmodf pos.z 2 - 1⟩ 0.5))
    (sdfSphere ⟨-fmodf pos.x 2 - 1, pos.y + 1.5, -fmodf pos.z 2 - 1⟩ 0.5)

/-- Rendered from the spec wording of claim C1: the cartesian point for
spherical coordinates (rho, theta, phi), theta being the asin-based
elevation, is (rho cos theta cos phi, rho cos theta sin phi, rho sin theta). -/
noncomputable def sphericalToCartesian (rho theta phi : ℝ) : Vec3 :=
  ⟨rho * (Real.cos theta * Real.cos phi), rho * (Real.cos theta * Real.sin phi),
    rho * Real.sin theta⟩

/-- Rendered from the spec wording of claim C1, step by step: set r to the
norm of z, escape as soon as r exceeds bail, otherwise take theta = asin
(z.z / r) and phi = atan2 (z.y, z.x), update dr to r^(power-1) * power *
dr + 1, and set z to the cartesian reconstruction of (r^power,
power * theta, power * phi) plus the original pos. -/
noncomputable def mandelbulbSpecLoop (pos : Vec3) (bail power : ℝ) :
    ℕ → Vec3 × ℝ × ℝ → Vec3 × ℝ × ℝ
  | 0, s => s
  | n + 1, (z, dr, _) =>
    let r := length z
    if r > bail then (z, dr, r)
    else
      let theta := Real.arcsin (z.z / r)
      let phi := atan2 z.y z.x
      mandelbulbSpecLoop pos bail power n
        (vadd (sphericalToCartesian (r ^ power) (power * theta) (power * phi)) pos,
          r ^ (power - 1) * power * dr + 1, r)

/-- Rendered from the spec wording of claim C1: start from z = pos,
dr = 1, r = 0, run at most the given number of loop steps, and return
0.5 * ln r * r / dr afterwards. -/
noncomputable def mandelbulbSpec (pos : Vec3) (iterations : ℕ) (bail power : ℝ) : ℝ :=
  let s := mandelbulbSpecLoop pos bail power iterations (pos, 1, 0)
  0.5 * Real.log s.2.2 * s.2.2 / s.2.1

/-- The scaled sample point (0,-2,0)/2.3 of the mandelbulb scene, read as
a complex number: its x and y components are 0 and -2/2.3 and its z
component vanishes, so the fractal iteration stays in the z = 0 plane. -/
noncomputable def c7c : ℂ := ⟨0, -2 / 2.3⟩

/-- The complex orbit of the sample point under w ↦ w^8 + c7c, which the
planar mandelbulb step realises. -/
noncomputable def c7orbit : ℕ → ℂ
  | 0 => c7c
  | k + 1 => c7orbit k ^ 8 + c7c

/-- The running derivative dr of the mandelbulb loop along the sample
orbit. -/
noncomputable def c7dr : ℕ → ℝ
  | 0 => 1
  | k + 1 => Complex.abs (c7orbit k) ^ (7:ℕ) * 8 * c7dr k + 1

end SDF

namespace SDF

/-- Evaluate a square root from an exact square. -/
lemma sqrt_eval {a b : ℝ} (hb : 0 ≤ b) (h : b ^ 2 = a) : Real.sqrt a = b := by
  rw [← h, Real.sqrt_sq hb]

/-- Truncation toward zero is an odd function. -/
lemma rtrunc_neg (t : ℝ) : rtrunc (-t) = -rtrunc t := by
  unfold rtrunc
  rcases lt_trichotomy t 0 with h | h | h
  · rw [if_neg (not_le.2 h), if_pos (by linarith), Int.floor_neg]
  · simp [h]
  · rw [if_pos h.le, if_neg (by push_neg; linarith), Int.ceil_neg]

/-- C fmodf is an odd function of its first argument. -/
lemma fmodf_neg (x y : ℝ) : fmodf (-x) y = -fmodf x y := by
  unfold fmodf
  rw [neg_div, rtrunc_neg]
  push_cast
  ring

/-- fmodf 1 2 = 1: one is its own remainder modulo two. -/
lemma fmodf_one_two : fmodf 1 2 = 1 := by
  unfold fmodf rtrunc
  rw [if_pos (by norm_num : (0:ℝ) ≤ 1 / 2)]
  rw [show ⌊(1:ℝ)/2⌋ = 0 from by rw [Int.floor_eq_zero_iff]; constructor <;> norm_num]
  norm_num

/-- Claim C4: sdfUnion is exactly min, sdfIntersection exactly max, and
sdfDifference a b exactly max (-a) b, as total functions on the reals. -/
theorem sdf_combinators_exact :
    ∀ a b : ℝ, sdfUnion a b = min a b ∧ sdfIntersection a b = max a b ∧
      sdfDifference a b = max (-a) b :=
  fun _ _ => ⟨rfl, rfl, rfl⟩

/-- Claim C5, counterexample: the claim asserts sdfDifference 1 2 = -1,
but the code computes max (-1) 2 = 2. -/
theorem sdfDifference_one_two_ne_neg_one : sdfDifference 1 2 ≠ -1 := by
  unfold sdfDifference
  norm_num

/-- Claim C5, amended: sdfDifference is not commutative; at a = 1, b = 2
it gives 2 one way and 1 the other, which differ. -/
theorem sdfDifference_not_commutative :
    sdfDifference 1 2 = 2 ∧ sdfDifference 2 1 = 1 ∧
      sdfDifference 1 2 ≠ sdfDifference 2 1 := by
  unfold sdfDifference
  norm_num

/-- Claim C6: the primitive distance functions are the stated closed
forms, with the four concrete evaluations from the spec. -/
theorem sdf_primitives_exact :
    (∀ (pos : Vec3) (radius : ℝ), sdfSphere pos radius = length pos - radius) ∧
    (∀ pos n : Vec3, sdfPlane pos n = dot pos n) ∧
    sdfSphere ⟨3, 4, 0⟩ 5 = 0 ∧ sdfSphere ⟨0, 0, 0⟩ 2 = -2 ∧
    sdfPlane ⟨0, 1, 0⟩ ⟨0, 1, 0⟩ = 1 ∧ sdfPlane ⟨0, -1, 0⟩ ⟨0, 1, 0⟩ = -1 := by
  refine ⟨fun _ _ => rfl, fun _ _ => rfl, ?_, ?_, ?_, ?_⟩ <;>
    simp only [sdfSphere, sdfPlane, length, dot]
  · rw [sqrt_eval (by norm_num : (0:ℝ) ≤ 5) (by norm_num)]
    norm_num
  · rw [sqrt_eval (le_refl (0:ℝ)) (by norm_num)]
    norm_num
  · norm_num
  · norm_num

/-- Claim C2: mandelbulbScene is the union of the scale-compensated
fractal term (input divided by 2.3, estimate multiplied by 2.3) with the
ground plane through (0,-2,0) with upward normal, whose distance is
pos.y + 2. -/
theorem mandelbulbScene_composition :
    ∀ pos : Vec3,
      mandelbulbScene pos =
        sdfUnion (mandelbulb (vdiv pos 2.3) 8 4 8 * 2.3)
          (sdfPlane (vsub pos ⟨0, -2, 0⟩) ⟨0, 1, 0⟩) ∧
      sdfPlane (vsub pos ⟨0, -2, 0⟩) ⟨0, 1, 0⟩ = pos.y + 2 := by
  intro pos
  refine ⟨rfl, ?_⟩
  simp only [sdfPlane, vsub, dot]
  ring

/-- Claim C3: each color sampler recomputes exactly the sub-distances of
its paired scene composer and returns the plane material when the plane
sub-distance is strictly smaller, the fractal/spheres material otherwise. -/
theorem color_distance_consistency :
    ∀ p : Vec3,
      mandelbulbScene p = sdfUnion (mbFractalTerm p) (groundPlaneTerm p) ∧
      mandelbulbColor p =
        (if groundPlaneTerm p < mbFractalTerm p then (⟨0.85, 0.85, 0.85⟩ : Vec3)
          else ⟨0.85, 1, 0⟩) ∧
      sphereScene p = sdfUnion (sphereLatticeTerm p) (groundPlaneTerm p) ∧
      sphereColor p =
        (if groundPlaneTerm p < sphereLatticeTerm p then (⟨1, 0.3, 0.1⟩ : Vec3)
          else ⟨0.85, 0.85, 0.85⟩) :=
  fun _ => ⟨rfl, rfl, rfl, rfl⟩

/-- Negating x swaps the two x-sign lattice variants, leaving the union
of the four sphere sub-distances unchanged. -/
lemma sphereLatticeTerm_negx (x y z : ℝ) :
    sphereLatticeTerm ⟨-x, y, z⟩ = sphereLatticeTerm ⟨x, y, z⟩ := by
  simp only [sphereLatticeTerm, sdfUnion, fmodf_neg, neg_neg]
  rw [min_comm (sdfSphere ⟨-fmodf x 2 - 1, y + 1.5, fmodf z 2 - 1⟩ 0.5)
      (sdfSphere ⟨fmodf x 2 - 1, y + 1.5, fmodf z 2 - 1⟩ 0.5),
    min_right_comm]

/-- Negating z swaps the two z-sign lattice variants, leaving the union
of the four sphere sub-distances unchanged. -/
lemma sphereLatticeTerm_negz (x y z : ℝ) :
    sphereLatticeTerm ⟨x, y, -z⟩ = sphereLatticeTerm ⟨x, y, z⟩ := by
  simp only [sphereLatticeTerm, sdfUnion, fmodf_neg, neg_neg]
  simp only [min_comm, min_assoc, min_left_comm]

/-- The ground-plane sub-distance only reads the y coordinate. -/
lemma groundPlaneTerm_eval (x y z : ℝ) :
    groundPlaneTerm ⟨x, y, z⟩ = y + 2 := by
  simp only [groundPlaneTerm, sdfPlane, vsub, dot]
  ring

/-- Claim C10: the sphere scene and its color sampler are invariant under
mirroring in x and in z, because fmodf is odd, so negating a coordinate
merely permutes the four sign-variant lattice sub-distances. -/
theorem sphereScene_mirror_symmetry :
    ∀ x y z : ℝ,
      sphereScene ⟨-x, y, z⟩ = sphereScene ⟨x, y, z⟩ ∧
      sphereScene ⟨x, y, -z⟩ = sphereScene ⟨x, y, z⟩ ∧
      sphereColor ⟨-x, y, z⟩ = sphereColor ⟨x, y, z⟩ ∧
      sphereColor ⟨x, y, -z⟩ = sphereColor ⟨x, y, z⟩ ∧
      (∀ t : ℝ, fmodf (-t) 2 = -fmodf t 2) := by
  intro x y z
  have hs : ∀ a b c : ℝ, sphereScene ⟨a, b, c⟩ =
      sdfUnion (sphereLatticeTerm ⟨a, b, c⟩) (groundPlaneTerm ⟨a, b, c⟩) :=
    fun _ _ _ => rfl
  have hc : ∀ a b c : ℝ, sphereColor ⟨a, b, c⟩ =
      (if groundPlaneTerm ⟨a, b, c⟩ < sphereLatticeTerm ⟨a, b, c⟩ then
        (⟨1, 0.3, 0.1⟩ : Vec3) else ⟨0.85, 0.85, 0.85⟩) :=
    fun _ _ _ => rfl
  refine ⟨?_, ?_, ?_, ?_, fun t => fmodf_neg t 2⟩ <;>
    simp only [hs, hc, sphereLatticeTerm_negx, sphereLatticeTerm_negz,
      groundPlaneTerm_eval]

/-- A sphere sub-distance of radius r is never below -r. -/
lemma sdfSphere_ge (v : Vec3) (r : ℝ) : -r ≤ sdfSphere v r := by
  simp only [sdfSphere, length]
  have := Real.sqrt_nonneg (dot v v)
  linarith

/-- A radius-0.5 sphere sub-distance is nonnegative once the squared
norm of the translated point is at least 0.25. -/
lemma sdfSphere_nonneg_of (v : Vec3) (h : (0.25:ℝ) ≤ dot v v) :
    0 ≤ sdfSphere v 0.5 := by
  simp only [sdfSphere, length]
  have hm : Real.sqrt 0.25 ≤ Real.sqrt (dot v v) := Real.sqrt_le_sqrt h
  rw [sqrt_eval (by norm_num : (0:ℝ) ≤ 0.5) (by norm_num)] at hm
  linarith

/-- Claim C8: the sphere scene evaluates to -0.5 at the lattice sphere
center (1,-1.5,1) and to 0 on the sphere surface directly above it. -/
theorem sphereScene_lattice_evals :
    sphereScene ⟨1, -1.5, 1⟩ = -0.5 ∧ sphereScene ⟨1, -1.5 + 0.5, 1⟩ = 0 := by
  have hs : ∀ a b c : ℝ, sphereScene ⟨a, b, c⟩ =
      sdfUnion (sphereLatticeTerm ⟨a, b, c⟩) (groundPlaneTerm ⟨a, b, c⟩) :=
    fun _ _ _ => rfl
  constructor
  · rw [hs, groundPlaneTerm_eval]
    have hl : sphereLatticeTerm ⟨1, -1.5, 1⟩ = -0.5 := by
      simp only [sphereLatticeTerm, sdfUnion, fmodf_one_two]
      have h1 : sdfSphere ⟨1 - 1, -1.5 + 1.5, 1 - 1⟩ 0.5 = -0.5 := by
        simp only [sdfSphere, length, dot]
        rw [show ((1:ℝ) - 1) * (1 - 1) + (-1.5 + 1.5) * (-1.5 + 1.5) +
          (1 - 1) * (1 - 1) = 0 from by norm_num, Real.sqrt_zero]
        norm_num
      rw [h1, min_eq_left (sdfSphere_ge _ _), min_eq_left (sdfSphere_ge _ _),
        min_eq_left (sdfSphere_ge _ _)]
    rw [hl, sdfUnion, min_eq_left (by norm_num : (-0.5:ℝ) ≤ -1.5 + 2)]
  · rw [hs, groundPlaneTerm_eval]
    have hl : sphereLatticeTerm ⟨1, -1.5 + 0.5, 1⟩ = 0 := by
      simp only [sphereLatticeTerm, sdfUnion, fmodf_one_two]
      have h1 : sdfSphere ⟨1 - 1, -1.5 + 0.5 + 1.5, 1 - 1⟩ 0.5 = 0 := by
        simp only [sdfSphere, length, dot]
        rw [show ((1:ℝ) - 1) * (1 - 1) + (-1.5 + 0.5 + 1.5) * (-1.5 + 0.5 + 1.5) +
          (1 - 1) * (1 - 1) = 0.25 from by norm_num]
        rw [sqrt_eval (by norm_num : (0:ℝ) ≤ 0.5) (by norm_num)]
        norm_num
      rw [h1, min_eq_left (sdfSphere_nonneg_of _ (by simp only [dot]; norm_num)),
        min_eq_left (sdfSphere_nonneg_of _ (by simp only [dot]; norm_num)),
        min_eq_left (sdfSphere_nonneg_of _ (by simp only [dot]; norm_num))]
    rw [hl, sdfUnion, min_eq_left (by norm_num : (0:ℝ) ≤ -1.5 + 0.5 + 2)]

/-- The norm of a vector lying in the z = 0 plane is the complex modulus
of its first two components. -/
lemma length_planar (a b : ℝ) : length ⟨a, b, 0⟩ = Complex.abs ⟨a, b⟩ := by
  simp only [length, dot, Complex.abs_apply, Complex.normSq_mk]
  rw [show (a * a + b * b + 0 * 0 : ℝ) = a * a + b * b from by ring]

/-- De Moivre in cartesian form, real part: |w|^n cos (n arg w) is the
real part of w^n. -/
lemma abs_pow_mul_cos_arg (w : ℂ) (n : ℕ) :
    Complex.abs w ^ n * Real.cos (n * Complex.arg w) = (w ^ n).re := by
  conv_rhs => rw [← Complex.abs_mul_exp_arg_mul_I w]
  rw [mul_pow, ← Complex.exp_nat_mul, ← Complex.ofReal_pow,
    show ((n : ℂ) * ((Complex.arg w : ℂ) * Complex.I)) =
      ((n * Complex.arg w : ℝ) : ℂ) * Complex.I from by push_cast; ring,
    Complex.re_ofReal_mul, Complex.exp_ofReal_mul_I_re]

/-- De Moivre in cartesian form, imaginary part. -/
lemma abs_pow_mul_sin_arg (w : ℂ) (n : ℕ) :
    Complex.abs w ^ n * Real.sin (n * Complex.arg w) = (w ^ n).im := by
  conv_rhs => rw [← Complex.abs_mul_exp_arg_mul_I w]
  rw [mul_pow, ← Complex.exp_nat_mul, ← Complex.ofReal_pow,
    show ((n : ℂ) * ((Complex.arg w : ℂ) * Complex.I)) =
      ((n * Complex.arg w : ℝ) : ℂ) * Complex.I from by push_cast; ring,
    Complex.im_ofReal_mul, Complex.exp_ofReal_mul_I_im]

/-- Real rpow with exponent 8 on any real base is the natural power. -/
lemma rpow_eight (r : ℝ) : r ^ (8:ℝ) = r ^ (8:ℕ) := by
  rw [show (8:ℝ) = ((8:ℕ):ℝ) from by norm_num, Real.rpow_natCast]

/-- Real rpow with exponent 8 - 1 on any real base is the 7th power. -/
lemma rpow_seven (r : ℝ) : r ^ ((8:ℝ) - 1) = r ^ (7:ℕ) := by
  rw [show ((8:ℝ) - 1) = ((7:ℕ):ℝ) from by norm_num, Real.rpow_natCast]

/-- De Moivre for the eighth power, real part, in literal form. -/
lemma abs_pow8_cos (w : ℂ) :
    Complex.abs w ^ (8:ℕ) * Real.cos ((8:ℝ) * Complex.arg w) = (w ^ (8:ℕ)).re := by
  have h := abs_pow_mul_cos_arg w 8
  push_cast at h
  exact h

/-- De Moivre for the eighth power, imaginary part, in literal form. -/
lemma abs_pow8_sin (w : ℂ) :
    Complex.abs w ^ (8:ℕ) * Real.sin ((8:ℝ) * Complex.arg w) = (w ^ (8:ℕ)).im := by
  have h := abs_pow_mul_sin_arg w 8
  push_cast at h
  exact h

/-- One non-escaping mandelbulb step on a point in the z = 0 plane, for
the scene parameters bail = 4 and power = 8, is the complex map
w ↦ w^8 + p: the elevation theta is asin 0 = 0, so the spherical
reconstruction stays in the plane and de Moivre collapses the scaled
angles. -/
lemma mbLoop_planar_step (px py : ℝ) (w : ℂ) (dr r0 : ℝ) (n : ℕ)
    (hbail : ¬ (4:ℝ) < Complex.abs w) :
    mbLoop ⟨px, py, 0⟩ 4 8 (n + 1) (⟨w.re, w.im, 0⟩, dr, r0) =
    mbLoop ⟨px, py, 0⟩ 4 8 n
      (⟨(w ^ 8).re + px, (w ^ 8).im + py, 0⟩,
        Complex.abs w ^ (7:ℕ) * 8 * dr + 1, Complex.abs w) := by
  have hlen : length ⟨w.re, w.im, 0⟩ = Complex.abs w := by
    rw [length_planar]
  have heta : ((⟨w.re, w.im⟩ : ℂ)) = w := rfl
  simp only [mbLoop, hlen]
  rw [if_neg hbail]
  congr 1
  rw [Prod.mk.injEq]
  constructor
  · simp only [vadd, vscale, atan2, heta, Vec3.mk.injEq]
    rw [zero_div, Real.arcsin_zero, zero_mul, Real.cos_zero, Real.sin_zero,
      rpow_eight, mul_comm (Complex.arg w) (8:ℝ)]
    simp only [one_mul, mul_one, mul_zero, zero_add, add_zero]
    rw [abs_pow8_cos, abs_pow8_sin]
    exact ⟨rfl, rfl, trivial⟩
  · rw [Prod.mk.injEq]
    exact ⟨by rw [rpow_seven], rfl⟩

/-- The source loop agrees step by step with the description in the spec of
the escape-time iteration. -/
lemma mbLoop_eq_specLoop (pos : Vec3) (bail power : ℝ) :
    ∀ (n : ℕ) (s : Vec3 × ℝ × ℝ),
      mbLoop pos bail power n s = mandelbulbSpecLoop pos bail power n s := by
  intro n
  induction n with
  | zero => intro s; rfl
  | succ n ih =>
    intro s
    obtain ⟨z, dr, r0⟩ := s
    simp only [mbLoop, mandelbulbSpecLoop]
    split_ifs with h
    · rfl
    · rw [ih]
      congr 1
      rw [Prod.mk.injEq]
      refine ⟨?_, ?_⟩
      · simp only [vadd, vscale, sphericalToCartesian, Vec3.mk.injEq]
        rw [mul_comm power (Real.arcsin (z.z / length z)),
          mul_comm power (atan2 z.y z.x)]
        exact ⟨by ring, by ring, by ring⟩
      · rfl

/-- The squared norm is a sum of squares, hence nonnegative. -/
lemma dot_self_nonneg (v : Vec3) : 0 ≤ dot v v := by
  simp only [dot]
  have := mul_self_nonneg v.x
  have := mul_self_nonneg v.y
  have := mul_self_nonneg v.z
  linarith

/-- The norm scales down with a positive scalar division. -/
lemma length_vdiv (v : Vec3) (s : ℝ) (hs : 0 < s) :
    length (vdiv v s) = length v / s := by
  simp only [length, vdiv, dot]
  rw [div_mul_div_comm, div_mul_div_comm, div_mul_div_comm, div_add_div_same,
    div_add_div_same, Real.sqrt_div (by simpa [dot] using dot_self_nonneg v) (s * s),
    Real.sqrt_mul_self hs.le]

/-- The general ground-plane sub-distance: the y coordinate plus 2. -/
lemma groundPlaneTerm_eq (p : Vec3) : groundPlaneTerm p = p.y + 2 := by
  simp only [groundPlaneTerm, sdfPlane, vsub, dot]
  ring

/-- When the very first radius already exceeds the bailout threshold the
loop escapes immediately and the estimator returns 0.5 * ln r * r with
dr still 1. -/
lemma mandelbulb_escape (pos : Vec3) (n : ℕ) (bail power : ℝ)
    (h : bail < length pos) :
    mandelbulb pos (n + 1) bail power =
      0.5 * Real.log (length pos) * length pos := by
  unfold mandelbulb
  simp only [mbLoop]
  rw [if_pos h]
  norm_num

/-- The norm of the point (0,-100,0) used as the far-field sample. -/
lemma length_far_sample : length ⟨0, -100, 0⟩ = 100 := by
  simp only [length, dot]
  rw [show ((⟨0, -100, 0⟩ : Vec3).x * (⟨0, -100, 0⟩ : Vec3).x +
      (⟨0, -100, 0⟩ : Vec3).y * (⟨0, -100, 0⟩ : Vec3).y +
      (⟨0, -100, 0⟩ : Vec3).z * (⟨0, -100, 0⟩ : Vec3).z : ℝ) = 10000 from by
    show ((0:ℝ) * 0 + (-100) * (-100) + 0 * 0 : ℝ) = 10000; norm_num]
  exact sqrt_eval (by norm_num) (by norm_num)

/-- Outside the scaled bailout radius the fractal term is the explicit
logarithmic expression, and it is positive. -/
lemma mbFractalTerm_far (p : Vec3) (hp : 9.2 < length p) :
    mbFractalTerm p =
      2.3 * (0.5 * Real.log (length p / 2.3) * (length p / 2.3)) ∧
      0 < mbFractalTerm p := by
  have h23 : (0:ℝ) < 2.3 := by norm_num
  have hdiv : length (vdiv p 2.3) = length p / 2.3 := length_vdiv p 2.3 h23
  have hesc : (4:ℝ) < length (vdiv p 2.3) := by
    rw [hdiv, lt_div_iff₀ h23]
    linarith
  have hmb : mandelbulb (vdiv p 2.3) 8 4 8 =
      0.5 * Real.log (length p / 2.3) * (length p / 2.3) := by
    rw [mandelbulb_escape (vdiv p 2.3) 7 4 8 hesc, hdiv]
  have hgt1 : (1:ℝ) < length p / 2.3 := by
    rw [lt_div_iff₀ h23]
    linarith
  have hlog : 0 < Real.log (length p / 2.3) := Real.log_pos hgt1
  constructor
  · rw [mbFractalTerm, hmb]
    ring
  · rw [mbFractalTerm, hmb]
    have : 0 < length p / 2.3 := by linarith
    positivity

/-- Claim C9, counterexample: at (0,-100,0), far outside the scaled
bailout radius, the scene distance is negative (the ground plane term
-98 wins the union), not a large positive value. -/
theorem mandelbulbScene_far_negative :
    9.2 < length ⟨0, -100, 0⟩ ∧ mandelbulbScene ⟨0, -100, 0⟩ < 0 := by
  have hL : (9.2:ℝ) < length ⟨0, -100, 0⟩ := by rw [length_far_sample]; norm_num
  refine ⟨hL, ?_⟩
  have hscene : mandelbulbScene ⟨0, -100, 0⟩ =
      sdfUnion (mbFractalTerm ⟨0, -100, 0⟩) (groundPlaneTerm ⟨0, -100, 0⟩) := rfl
  have hg : groundPlaneTerm ⟨0, -100, 0⟩ = -98 := by
    rw [groundPlaneTerm_eq]
    show (-100:ℝ) + 2 = -98
    norm_num
  have hpos := (mbFractalTerm_far ⟨0, -100, 0⟩ hL).2
  rw [hscene, hg, sdfUnion, min_eq_right (by linarith)]
  norm_num

/-- Claim C9, amended: outside the scaled bailout radius the loop escapes
on the first iteration, so the fractal term equals the explicit
scale-compensated logarithmic formula, is positive, and grows strictly
with the norm of the query point; the full scene distance is the minimum
of that term with the ground-plane distance pos.y + 2. -/
theorem mandelbulbScene_far_field :
    ∀ p : Vec3, 9.2 < length p →
      mbFractalTerm p =
        2.3 * (0.5 * Real.log (length p / 2.3) * (length p / 2.3)) ∧
      0 < mbFractalTerm p ∧
      mandelbulbScene p = min (mbFractalTerm p) (p.y + 2) ∧
      ∀ q : Vec3, length p < length q → mbFractalTerm p < mbFractalTerm q := by
  intro p hp
  obtain ⟨hform, hpos⟩ := mbFractalTerm_far p hp
  refine ⟨hform, hpos, ?_, ?_⟩
  · have hscene : mandelbulbScene p =
        sdfUnion (mbFractalTerm p) (groundPlaneTerm p) := rfl
    rw [hscene, groundPlaneTerm_eq, sdfUnion]
  · intro q hq
    have hq92 : 9.2 < length q := lt_trans hp hq
    obtain ⟨hformq, _⟩ := mbFractalTerm_far q hq92
    rw [hform, hformq]
    have h23 : (0:ℝ) < 2.3 := by norm_num
    have hr1 : (4:ℝ) < length p / 2.3 := by rw [lt_div_iff₀ h23]; linarith
    have hr2 : (4:ℝ) < length q / 2.3 := by rw [lt_div_iff₀ h23]; linarith
    have hrr : length p / 2.3 < length q / 2.3 := (div_lt_div_iff_of_pos_right h23).mpr hq
    have hl2 : 0 < Real.log (length q / 2.3) := Real.log_pos (by linarith)
    have hll : Real.log (length p / 2.3) < Real.log (length q / 2.3) :=
      Real.log_lt_log (by linarith) hrr
    have h1 : Real.log (length p / 2.3) * (length p / 2.3) <
        Real.log (length q / 2.3) * (length p / 2.3) :=
      mul_lt_mul_of_pos_right hll (by linarith)
    have h2 : Real.log (length q / 2.3) * (length p / 2.3) <
        Real.log (length q / 2.3) * (length q / 2.3) :=
      mul_lt_mul_of_pos_left hrr hl2
    nlinarith [h1, h2]

/-- Claim C9, witness for the amended theorem: the hypothesis holds at the
concrete far-field sample (0,-100,0). -/
theorem mandelbulbScene_far_field_witness :
    9.2 < length ⟨0, -100, 0⟩ ∧
      (mbFractalTerm ⟨0, -100, 0⟩ =
        2.3 * (0.5 * Real.log (length ⟨0, -100, 0⟩ / 2.3) *
          (length ⟨0, -100, 0⟩ / 2.3)) ∧
      0 < mbFractalTerm ⟨0, -100, 0⟩ ∧
      mandelbulbScene ⟨0, -100, 0⟩ =
        min (mbFractalTerm ⟨0, -100, 0⟩) ((⟨0, -100, 0⟩ : Vec3).y + 2) ∧
      ∀ q : Vec3, length ⟨0, -100, 0⟩ < length q →
        mbFractalTerm ⟨0, -100, 0⟩ < mbFractalTerm q) := by
  have hL : (9.2:ℝ) < length ⟨0, -100, 0⟩ := by rw [length_far_sample]; norm_num
  exact ⟨hL, mandelbulbScene_far_field ⟨0, -100, 0⟩ hL⟩

/-- One scene-parameter mandelbulb step at the sample point advances the
complex orbit by one index. -/
lemma c7_step (k n : ℕ) (dr r0 : ℝ) (h : Complex.abs (c7orbit k) ≤ 4) :
    mbLoop ⟨0, -2 / 2.3, 0⟩ 4 8 (n + 1)
      (⟨(c7orbit k).re, (c7orbit k).im, 0⟩, dr, r0) =
    mbLoop ⟨0, -2 / 2.3, 0⟩ 4 8 n
      (⟨(c7orbit (k + 1)).re, (c7orbit (k + 1)).im, 0⟩,
        Complex.abs (c7orbit k) ^ (7:ℕ) * 8 * dr + 1, Complex.abs (c7orbit k)) := by
  rw [mbLoop_planar_step 0 (-2 / 2.3) (c7orbit k) dr r0 n (not_lt.2 h)]
  congr 2

/-- Running the full 8-iteration mandelbulb loop at the scaled sample
point: provided no orbit radius among the first 8 exceeds the bailout,
the estimator returns 0.5 * ln r * r / dr with r the radius of the 7th
orbit point and dr the accumulated derivative. -/
lemma c7_mandelbulb_value (h : ∀ k, k ≤ 7 → Complex.abs (c7orbit k) ≤ 4) :
    mandelbulb (vdiv ⟨0, -2, 0⟩ 2.3) 8 4 8 =
      0.5 * Real.log (Complex.abs (c7orbit 7)) * Complex.abs (c7orbit 7) /
        c7dr 8 := by
  have hpos : vdiv ⟨0, -2, 0⟩ 2.3 = ⟨0, -2 / 2.3, 0⟩ := by
    simp only [vdiv]
    rw [Vec3.mk.injEq]
    norm_num
  have hL : mbLoop ⟨0, -2 / 2.3, 0⟩ 4 8 8 (⟨0, -2 / 2.3, 0⟩, 1, 0) =
      (⟨(c7orbit 8).re, (c7orbit 8).im, 0⟩, c7dr 8, Complex.abs (c7orbit 7)) := by
    rw [show ((⟨0, -2 / 2.3, 0⟩ : Vec3), (1:ℝ), (0:ℝ)) =
      ((⟨(c7orbit 0).re, (c7orbit 0).im, 0⟩ : Vec3), c7dr 0, (0:ℝ)) from rfl]
    rw [c7_step 0 7 _ _ (h 0 (by norm_num)), c7_step 1 6 _ _ (h 1 (by norm_num)),
      c7_step 2 5 _ _ (h 2 (by norm_num)), c7_step 3 4 _ _ (h 3 (by norm_num)),
      c7_step 4 3 _ _ (h 4 (by norm_num)), c7_step 5 2 _ _ (h 5 (by norm_num)),
      c7_step 6 1 _ _ (h 6 (by norm_num)), c7_step 7 0 _ _ (h 7 (by norm_num))]
    simp only [mbLoop, c7dr]
  unfold mandelbulb
  rw [hpos]
  simp only [hL]

/-- The derivative accumulator stays positive along the orbit. -/
lemma c7dr_pos : ∀ k, 0 < c7dr k := by
  intro k
  induction k with
  | zero => norm_num [c7dr]
  | succ k ih =>
    have h1 : 0 ≤ Complex.abs (c7orbit k) ^ (7:ℕ) :=
      pow_nonneg (Complex.abs.nonneg _) 7
    simp only [c7dr]
    nlinarith

/-- Modulus bound from a bound on the squared modulus. -/
lemma abs_le_of_normSq_le {z : ℂ} {M : ℝ} (hM : 0 ≤ M)
    (h : Complex.normSq z ≤ M ^ 2) : Complex.abs z ≤ M := by
  rw [Complex.abs_apply]
  calc Real.sqrt (Complex.normSq z) ≤ Real.sqrt (M ^ 2) := Real.sqrt_le_sqrt h
  _ = M := Real.sqrt_sq hM

/-- Modulus lower bound from a lower bound on the squared modulus. -/
lemma le_abs_of_sq_le_normSq {z : ℂ} {m : ℝ} (hm : 0 ≤ m)
    (h : m ^ 2 ≤ Complex.normSq z) : m ≤ Complex.abs z := by
  rw [Complex.abs_apply]
  calc m = Real.sqrt (m ^ 2) := (Real.sqrt_sq hm).symm
  _ ≤ Real.sqrt (Complex.normSq z) := Real.sqrt_le_sqrt h

/-- Squaring at most doubles-and-scales an approximation error. -/
lemma sq_approx {w a : ℂ} {e K : ℝ} (hwa : Complex.abs (w - a) ≤ e)
    (hw : Complex.abs w ≤ K) (ha : Complex.abs a ≤ K) :
    Complex.abs (w ^ 2 - a ^ 2) ≤ e * (2 * K) := by
  have hfac : w ^ 2 - a ^ 2 = (w - a) * (w + a) := by ring
  rw [hfac, map_mul]
  have h1 : Complex.abs (w + a) ≤ 2 * K :=
    le_trans (Complex.abs.add_le w a) (by linarith)
  have he : 0 ≤ e := le_trans (Complex.abs.nonneg _) hwa
  exact mul_le_mul hwa h1 (Complex.abs.nonneg _) he

/-- Error propagation through the eighth power, by three squarings. -/
lemma pow8_approx {w a : ℂ} {e K : ℝ} (hwa : Complex.abs (w - a) ≤ e)
    (hw : Complex.abs w ≤ K) (ha : Complex.abs a ≤ K) :
    Complex.abs (w ^ 8 - a ^ 8) ≤ 8 * K ^ 7 * e := by
  have hK : 0 ≤ K := le_trans (Complex.abs.nonneg w) hw
  have h2 := sq_approx hwa hw ha
  have hw2 : Complex.abs (w ^ 2) ≤ K ^ 2 := by
    rw [map_pow]
    exact pow_le_pow_left₀ (Complex.abs.nonneg w) hw 2
  have ha2 : Complex.abs (a ^ 2) ≤ K ^ 2 := by
    rw [map_pow]
    exact pow_le_pow_left₀ (Complex.abs.nonneg a) ha 2
  have h4 := sq_approx h2 hw2 ha2
  have hw4 : Complex.abs ((w ^ 2) ^ 2) ≤ (K ^ 2) ^ 2 := by
    rw [map_pow]
    exact pow_le_pow_left₀ (Complex.abs.nonneg _) hw2 2
  have ha4 : Complex.abs ((a ^ 2) ^ 2) ≤ (K ^ 2) ^ 2 := by
    rw [map_pow]
    exact pow_le_pow_left₀ (Complex.abs.nonneg _) ha2 2
  have h8 := sq_approx h4 hw4 ha4
  calc Complex.abs (w ^ 8 - a ^ 8)
      = Complex.abs (((w ^ 2) ^ 2) ^ 2 - ((a ^ 2) ^ 2) ^ 2) := by
        rw [show ((w ^ 2) ^ 2) ^ 2 = w ^ 8 from by ring,
          show ((a ^ 2) ^ 2) ^ 2 = a ^ 8 from by ring]
  _ ≤ e * (2 * K) * (2 * K ^ 2) * (2 * (K ^ 2) ^ 2) := h8
  _ = 8 * K ^ 7 * e := by ring

/-- One orbit step: approximate the eighth power of the previous
approximation, add the constant, and round. -/
lemma orbit_step_approx (k : ℕ) {a b a1 : ℂ} {e d K : ℝ}
    (h1 : Complex.abs (c7orbit k - a) ≤ e)
    (hw : Complex.abs (c7orbit k) ≤ K) (ha : Complex.abs a ≤ K)
    (hb : a ^ 8 + c7c = b) (h2 : Complex.abs (b - a1) ≤ d) :
    Complex.abs (c7orbit (k + 1) - a1) ≤ 8 * K ^ 7 * e + d := by
  have hsplit : c7orbit (k + 1) - a1 = (c7orbit k ^ 8 - a ^ 8) + (b - a1) := by
    rw [← hb, show c7orbit (k + 1) = c7orbit k ^ 8 + c7c from rfl]
    ring
  rw [hsplit]
  exact le_trans (Complex.abs.add_le _ _)
    (add_le_add (pow8_approx h1 hw ha) h2)

/-- Modulus upper bound transported along an approximation. -/
lemma abs_le_of_approx {w a : ℂ} {e M K : ℝ}
    (h1 : Complex.abs (w - a) ≤ e) (h2 : Complex.abs a ≤ M)
    (h3 : M + e ≤ K) : Complex.abs w ≤ K := by
  have hw : w = a + (w - a) := by ring
  rw [hw]
  exact le_trans (Complex.abs.add_le _ _) (by linarith)

/-- Modulus lower bound transported along an approximation. -/
lemma abs_ge_of_approx {w a : ℂ} {e m : ℝ}
    (h1 : Complex.abs (w - a) ≤ e) (h2 : m + e ≤ Complex.abs a) :
    m ≤ Complex.abs w := by
  have h3 : Complex.abs a ≤ Complex.abs w + e := by
    calc Complex.abs a = Complex.abs (w + (a - w)) := by ring_nf
    _ ≤ Complex.abs w + Complex.abs (a - w) := Complex.abs.add_le _ _
    _ ≤ Complex.abs w + e := by rw [Complex.abs.map_sub]; linarith
  linarith

/-- Squaring a complex literal in components. -/
lemma cmk_sq (p q : ℝ) :
    (⟨p, q⟩ : ℂ) ^ 2 = ⟨p * p - q * q, p * q + q * p⟩ := by
  rw [sq]
  exact Complex.ext (by simp [Complex.mul_re]) (by simp [Complex.mul_im])

/-- Adding complex literals in components. -/
lemma cmk_add (p q r s : ℝ) :
    (⟨p, q⟩ : ℂ) + ⟨r, s⟩ = ⟨p + r, q + s⟩ := by
  exact Complex.ext (by simp) (by simp)

/-- Subtracting complex literals in components. -/
lemma cmk_sub (p q r s : ℝ) :
    (⟨p, q⟩ : ℂ) - ⟨r, s⟩ = ⟨p - r, q - s⟩ := by
  exact Complex.ext (by simp) (by simp)

/-- The eighth power as three squarings, for rewriting literals. -/
lemma pow_eight_eq (a : ℂ) : a ^ 8 = ((a ^ 2) ^ 2) ^ 2 := by ring

/-- The first orbit point, computed exactly. -/
lemma c7a1_exact : c7orbit 1 = ⟨25600000000 / 78310985281, -(20 / 23)⟩ := by
  rw [show c7orbit 1 = c7orbit 0 ^ 8 + c7c from rfl, show c7orbit 0 = c7c from rfl,
    pow_eight_eq, show (c7c : ℂ) = ⟨0, -2 / 2.3⟩ from rfl, cmk_sq, cmk_sq, cmk_sq,
    cmk_add, Complex.mk.injEq]
  exact ⟨by norm_num, by norm_num⟩

/-- The orbit is exactly its own first approximation at index 1. -/
lemma c7approx1 :
    Complex.abs (c7orbit 1 - ⟨25600000000 / 78310985281, -(20 / 23)⟩) ≤ 0 := by
  rw [c7a1_exact, sub_self, map_zero]

/-- Modulus bound for the index-1 approximation point. -/
lemma c7ha1 : Complex.abs (⟨25600000000 / 78310985281, -(20 / 23)⟩ : ℂ) ≤ 0.928983 := by
  refine abs_le_of_normSq_le (by norm_num) ?_
  rw [Complex.normSq_mk]
  norm_num

/-- Modulus bound for the index-2 approximation point. -/
lemma c7ha2 : Complex.abs (⟨-0.5353600164659375906559679823563597590539, -0.7243599244434933190041381661165275616712⟩ : ℂ) ≤ 0.900727 := by
  refine abs_le_of_normSq_le (by norm_num) ?_
  rw [Complex.normSq_mk]
  norm_num

/-- Modulus bound for the index-3 approximation point. -/
lemma c7ha3 : Complex.abs (⟨0.1604678306804720155223701874567791618154, -0.4671241131110075811650387514933922976657⟩ : ℂ) ≤ 0.493918 := by
  refine abs_le_of_normSq_le (by norm_num) ?_
  rw [Complex.normSq_mk]
  norm_num

/-- Modulus bound for the index-4 approximation point. -/
lemma c7ha4 : Complex.abs (⟨-0.0031176994423057504635849634938053209718, -0.8678844142858579541567061586638864573727⟩ : ℂ) ≤ 0.867891 := by
  refine abs_le_of_normSq_le (by norm_num) ?_
  rw [Complex.normSq_mk]
  norm_num

/-- Modulus bound for the index-5 approximation point. -/
lemma c7ha5 : Complex.abs (⟨0.3217645300122246436510065442115506895603, -0.8788147167156103563599786894112670631548⟩ : ℂ) ≤ 0.935868 := by
  refine abs_le_of_normSq_le (by norm_num) ?_
  rw [Complex.normSq_mk]
  norm_num

/-- Modulus bound for the index-6 approximation point. -/
lemma c7ha6 : Complex.abs (⟨-0.555978792844060373890811335772917590707, -0.6767733290395515092722131248875499851014⟩ : ℂ) ≤ 0.875863 := by
  refine abs_le_of_normSq_le (by norm_num) ?_
  rw [Complex.normSq_mk]
  norm_num

/-- Modulus bound for the index-7 approximation point. -/
lemma c7ha7 : Complex.abs (⟨0.2458655216820597067984087469556599910574, -0.6256544842992715659488916941361138063149⟩ : ℂ) ≤ 0.672231 := by
  refine abs_le_of_normSq_le (by norm_num) ?_
  rw [Complex.normSq_mk]
  norm_num

/-- The eighth power of the index-1 approximation plus the constant,
computed exactly. -/
lemma c7hb1 : (⟨25600000000 / 78310985281, -(20 / 23)⟩ : ℂ) ^ 8 + c7c = ⟨-(757229348280546377403976336560751758615057779920037943642970465054762857897958400000000 / 1414430149788231852676288931564393259755477871188002418354492595462286094183104888189441), -(300913081266454292488750623895052255924641558890446423664990764175966517267220 / 415419284132315712417280030850401847268465234537470378097327641202361494857303)⟩ := by
  rw [pow_eight_eq, cmk_sq, cmk_sq, cmk_sq,
    show (c7c : ℂ) = ⟨0, -2 / 2.3⟩ from rfl, cmk_add, Complex.mk.injEq]
  exact ⟨by norm_num, by norm_num⟩

/-- Certified approximation of orbit point 2. -/
lemma c7approx2 :
    Complex.abs (c7orbit 2 - (⟨-0.5353600164659375906559679823563597590539, -0.7243599244434933190041381661165275616712⟩ : ℂ)) ≤ 100e-42 := by
  have hd : Complex.abs ((⟨-(757229348280546377403976336560751758615057779920037943642970465054762857897958400000000 / 1414430149788231852676288931564393259755477871188002418354492595462286094183104888189441), -(300913081266454292488750623895052255924641558890446423664990764175966517267220 / 415419284132315712417280030850401847268465234537470378097327641202361494857303)⟩ : ℂ) -
      (⟨-0.5353600164659375906559679823563597590539, -0.7243599244434933190041381661165275616712⟩ : ℂ)) ≤ 1e-40 := by
    rw [cmk_sub]
    refine abs_le_of_normSq_le (by norm_num) ?_
    rw [Complex.normSq_mk]
    norm_num
  have hw : Complex.abs (c7orbit 1) ≤ 0.928983 :=
    abs_le_of_approx c7approx1 c7ha1 (by norm_num)
  have h := orbit_step_approx 1 c7approx1 hw (le_trans c7ha1 (by norm_num))
    c7hb1 hd
  exact le_trans h (by norm_num)

/-- The eighth power of the index-2 approximation plus the constant,
computed exactly. -/
lemma c7hb2 : (⟨-0.5353600164659375906559679823563597590539, -0.7243599244434933190041381661165275616712⟩ : ℂ) ^ 8 + c7c = ⟨16046783068047201552237018745677916181543294870144357718399815791642310179019110234827785114196768689100107923997264682499366546667254990683259098469912391884912018275977585140717190410236970692119742789339876616167772415186401488463779011608281736257060946179987542224989888445408468500260739227221766424054870750022753 / 100000000000000000000000000000000000000000000000000000000000000000000000000000000000000000000000000000000000000000000000000000000000000000000000000000000000000000000000000000000000000000000000000000000000000000000000000000000000000000000000000000000000000000000000000000000000000000000000000000000000000000000000000000000, -(16787272814926834948118580131793785697362732188377959522845888270634941233057413782168038562587357593378472261167488573043051515687257425283416697491647308835218646431490705862599513279664589663420638221328445109575812413233456650541535654436241544594214221938210267628046622559568225670803854071061918033160965738115747 / 35937500000000000000000000000000000000000000000000000000000000000000000000000000000000000000000000000000000000000000000000000000000000000000000000000000000000000000000000000000000000000000000000000000000000000000000000000000000000000000000000000000000000000000000000000000000000000000000000000000000000000000000000000000)⟩ := by
  rw [pow_eight_eq, cmk_sq, cmk_sq, cmk_sq,
    show (c7c : ℂ) = ⟨0, -2 / 2.3⟩ from rfl, cmk_add, Complex.mk.injEq]
  exact ⟨by norm_num, by norm_num⟩

/-- Certified approximation of orbit point 3. -/
lemma c7approx3 :
    Complex.abs (c7orbit 3 - (⟨0.1604678306804720155223701874567791618154, -0.4671241131110075811650387514933922976657⟩ : ℂ)) ≤ 485e-42 := by
  have hd : Complex.abs ((⟨16046783068047201552237018745677916181543294870144357718399815791642310179019110234827785114196768689100107923997264682499366546667254990683259098469912391884912018275977585140717190410236970692119742789339876616167772415186401488463779011608281736257060946179987542224989888445408468500260739227221766424054870750022753 / 100000000000000000000000000000000000000000000000000000000000000000000000000000000000000000000000000000000000000000000000000000000000000000000000000000000000000000000000000000000000000000000000000000000000000000000000000000000000000000000000000000000000000000000000000000000000000000000000000000000000000000000000000000000, -(16787272814926834948118580131793785697362732188377959522845888270634941233057413782168038562587357593378472261167488573043051515687257425283416697491647308835218646431490705862599513279664589663420638221328445109575812413233456650541535654436241544594214221938210267628046622559568225670803854071061918033160965738115747 / 35937500000000000000000000000000000000000000000000000000000000000000000000000000000000000000000000000000000000000000000000000000000000000000000000000000000000000000000000000000000000000000000000000000000000000000000000000000000000000000000000000000000000000000000000000000000000000000000000000000000000000000000000000000)⟩ : ℂ) -
      (⟨0.1604678306804720155223701874567791618154, -0.4671241131110075811650387514933922976657⟩ : ℂ)) ≤ 1e-40 := by
    rw [cmk_sub]
    refine abs_le_of_normSq_le (by norm_num) ?_
    rw [Complex.normSq_mk]
    norm_num
  have hw : Complex.abs (c7orbit 2) ≤ 0.900728 :=
    abs_le_of_approx c7approx2 c7ha2 (by norm_num)
  have h := orbit_step_approx 2 c7approx2 hw (le_trans c7ha2 (by norm_num))
    c7hb2 hd
  exact le_trans h (by norm_num)

/-- The eighth power of the index-3 approximation plus the constant,
computed exactly. -/
lemma c7hb3 : (⟨0.1604678306804720155223701874567791618154, -0.4671241131110075811650387514933922976657⟩ : ℂ) ^ 8 + c7c = ⟨-(311769944230575046358496349380532097184157782360308866481865611326264830364260742428278385833739477906872687896336448914679765809548156751959740349277415256302586863963357929093890433356290446224132654982454897120040152932254849352732476203883436288357652440881256565173652786040124822135212465015707888010792507694607 / 100000000000000000000000000000000000000000000000000000000000000000000000000000000000000000000000000000000000000000000000000000000000000000000000000000000000000000000000000000000000000000000000000000000000000000000000000000000000000000000000000000000000000000000000000000000000000000000000000000000000000000000000000000000), -(124758384553592080910026510307933678247325898080747077027480871160807654341183134203553464085186431352182329456772380459418924797265678050518621558461273117241271413209719637292945028108869889830078106007431867938876921653271491461900381779248682967990770970117100789575106666876733305698052480498405503702617952762975697 / 143750000000000000000000000000000000000000000000000000000000000000000000000000000000000000000000000000000000000000000000000000000000000000000000000000000000000000000000000000000000000000000000000000000000000000000000000000000000000000000000000000000000000000000000000000000000000000000000000000000000000000000000000000000)⟩ := by
  rw [pow_eight_eq, cmk_sq, cmk_sq, cmk_sq,
    show (c7c : ℂ) = ⟨0, -2 / 2.3⟩ from rfl, cmk_add, Complex.mk.injEq]
  exact ⟨by norm_num, by norm_num⟩

/-- Certified approximation of orbit point 4. -/
lemma c7approx4 :
    Complex.abs (c7orbit 4 - (⟨-0.0031176994423057504635849634938053209718, -0.8678844142858579541567061586638864573727⟩ : ℂ)) ≤ 128e-42 := by
  have hd : Complex.abs ((⟨-(311769944230575046358496349380532097184157782360308866481865611326264830364260742428278385833739477906872687896336448914679765809548156751959740349277415256302586863963357929093890433356290446224132654982454897120040152932254849352732476203883436288357652440881256565173652786040124822135212465015707888010792507694607 / 100000000000000000000000000000000000000000000000000000000000000000000000000000000000000000000000000000000000000000000000000000000000000000000000000000000000000000000000000000000000000000000000000000000000000000000000000000000000000000000000000000000000000000000000000000000000000000000000000000000000000000000000000000000), -(124758384553592080910026510307933678247325898080747077027480871160807654341183134203553464085186431352182329456772380459418924797265678050518621558461273117241271413209719637292945028108869889830078106007431867938876921653271491461900381779248682967990770970117100789575106666876733305698052480498405503702617952762975697 / 143750000000000000000000000000000000000000000000000000000000000000000000000000000000000000000000000000000000000000000000000000000000000000000000000000000000000000000000000000000000000000000000000000000000000000000000000000000000000000000000000000000000000000000000000000000000000000000000000000000000000000000000000000000)⟩ : ℂ) -
      (⟨-0.0031176994423057504635849634938053209718, -0.8678844142858579541567061586638864573727⟩ : ℂ)) ≤ 1e-40 := by
    rw [cmk_sub]
    refine abs_le_of_normSq_le (by norm_num) ?_
    rw [Complex.normSq_mk]
    norm_num
  have hw : Complex.abs (c7orbit 3) ≤ 0.493919 :=
    abs_le_of_approx c7approx3 c7ha3 (by norm_num)
  have h := orbit_step_approx 3 c7approx3 hw (le_trans c7ha3 (by norm_num))
    c7hb3 hd
  exact le_trans h (by norm_num)

/-- The eighth power of the index-4 approximation plus the constant,
computed exactly. -/
lemma c7hb4 : (⟨-0.0031176994423057504635849634938053209718, -0.8678844142858579541567061586638864573727⟩ : ℂ) ^ 8 + c7c = ⟨32176453001222464365100654421155068956032447514704943021856969061289743087858866741157149604287718000703207411668404716207889320046027246461016728887719866547274009699655046192196184146054322504501621861194268929793749152195912169393579184675748060918279277790730576145839786277961575277208654073706986591749844992493681 / 100000000000000000000000000000000000000000000000000000000000000000000000000000000000000000000000000000000000000000000000000000000000000000000000000000000000000000000000000000000000000000000000000000000000000000000000000000000000000000000000000000000000000000000000000000000000000000000000000000000000000000000000000000000, -(25265923105573797745349387320573928065699951843101198427038339711557409197052168816821245502666444277493879443326696595704090252019696224014445781333749500441227990578999747171575818710654141172263195074166874979581760927968419744106356385288265691388987551800943445224097565497406526570831548440220907314000436819166499 / 28750000000000000000000000000000000000000000000000000000000000000000000000000000000000000000000000000000000000000000000000000000000000000000000000000000000000000000000000000000000000000000000000000000000000000000000000000000000000000000000000000000000000000000000000000000000000000000000000000000000000000000000000000000)⟩ := by
  rw [pow_eight_eq, cmk_sq, cmk_sq, cmk_sq,
    show (c7c : ℂ) = ⟨0, -2 / 2.3⟩ from rfl, cmk_add, Complex.mk.injEq]
  exact ⟨by norm_num, by norm_num⟩

/-- Certified approximation of orbit point 5. -/
lemma c7approx5 :
    Complex.abs (c7orbit 5 - (⟨0.3217645300122246436510065442115506895603, -0.8788147167156103563599786894112670631548⟩ : ℂ)) ≤ 480e-42 := by
  have hd : Complex.abs ((⟨32176453001222464365100654421155068956032447514704943021856969061289743087858866741157149604287718000703207411668404716207889320046027246461016728887719866547274009699655046192196184146054322504501621861194268929793749152195912169393579184675748060918279277790730576145839786277961575277208654073706986591749844992493681 / 100000000000000000000000000000000000000000000000000000000000000000000000000000000000000000000000000000000000000000000000000000000000000000000000000000000000000000000000000000000000000000000000000000000000000000000000000000000000000000000000000000000000000000000000000000000000000000000000000000000000000000000000000000000, -(25265923105573797745349387320573928065699951843101198427038339711557409197052168816821245502666444277493879443326696595704090252019696224014445781333749500441227990578999747171575818710654141172263195074166874979581760927968419744106356385288265691388987551800943445224097565497406526570831548440220907314000436819166499 / 28750000000000000000000000000000000000000000000000000000000000000000000000000000000000000000000000000000000000000000000000000000000000000000000000000000000000000000000000000000000000000000000000000000000000000000000000000000000000000000000000000000000000000000000000000000000000000000000000000000000000000000000000000000)⟩ : ℂ) -
      (⟨0.3217645300122246436510065442115506895603, -0.8788147167156103563599786894112670631548⟩ : ℂ)) ≤ 1e-40 := by
    rw [cmk_sub]
    refine abs_le_of_normSq_le (by norm_num) ?_
    rw [Complex.normSq_mk]
    norm_num
  have hw : Complex.abs (c7orbit 4) ≤ 0.867892 :=
    abs_le_of_approx c7approx4 c7ha4 (by norm_num)
  have h := orbit_step_approx 4 c7approx4 hw (le_trans c7ha4 (by norm_num))
    c7hb4 hd
  exact le_trans h (by norm_num)

/-- The eighth power of the index-5 approximation plus the constant,
computed exactly. -/
lemma c7hb5 : (⟨0.3217645300122246436510065442115506895603, -0.8788147167156103563599786894112670631548⟩ : ℂ) ^ 8 + c7c = ⟨-(55597879284406037389081133577291759070702080229102621563584721229314753599999216280334496661200887058518042826693918280578553326852964501902003465295561989225046685244706117774503682379766269824335651698927356896691708680344656656450230459640720061229131748595001164576328607711113804003589859017989790600238898850715039 / 100000000000000000000000000000000000000000000000000000000000000000000000000000000000000000000000000000000000000000000000000000000000000000000000000000000000000000000000000000000000000000000000000000000000000000000000000000000000000000000000000000000000000000000000000000000000000000000000000000000000000000000000000000000), -(9728616604943552945788063670258531035832011390695180933399349535621881777976573039681073318542243134046500707091338789161753264440220290116143872089548008489299741189920692582876969481853041756961950908707306895149043358901697917640100793685316298601118613312296877091305755775501464084625754196179702790323525668414023 / 14375000000000000000000000000000000000000000000000000000000000000000000000000000000000000000000000000000000000000000000000000000000000000000000000000000000000000000000000000000000000000000000000000000000000000000000000000000000000000000000000000000000000000000000000000000000000000000000000000000000000000000000000000000)⟩ := by
  rw [pow_eight_eq, cmk_sq, cmk_sq, cmk_sq,
    show (c7c : ℂ) = ⟨0, -2 / 2.3⟩ from rfl, cmk_add, Complex.mk.injEq]
  exact ⟨by norm_num, by norm_num⟩

/-- Certified approximation of orbit point 6. -/
lemma c7approx6 :
    Complex.abs (c7orbit 6 - (⟨-0.555978792844060373890811335772917590707, -0.6767733290395515092722131248875499851014⟩ : ℂ)) ≤ 2515e-42 := by
  have hd : Complex.abs ((⟨-(55597879284406037389081133577291759070702080229102621563584721229314753599999216280334496661200887058518042826693918280578553326852964501902003465295561989225046685244706117774503682379766269824335651698927356896691708680344656656450230459640720061229131748595001164576328607711113804003589859017989790600238898850715039 / 100000000000000000000000000000000000000000000000000000000000000000000000000000000000000000000000000000000000000000000000000000000000000000000000000000000000000000000000000000000000000000000000000000000000000000000000000000000000000000000000000000000000000000000000000000000000000000000000000000000000000000000000000000000), -(9728616604943552945788063670258531035832011390695180933399349535621881777976573039681073318542243134046500707091338789161753264440220290116143872089548008489299741189920692582876969481853041756961950908707306895149043358901697917640100793685316298601118613312296877091305755775501464084625754196179702790323525668414023 / 14375000000000000000000000000000000000000000000000000000000000000000000000000000000000000000000000000000000000000000000000000000000000000000000000000000000000000000000000000000000000000000000000000000000000000000000000000000000000000000000000000000000000000000000000000000000000000000000000000000000000000000000000000000)⟩ : ℂ) -
      (⟨-0.555978792844060373890811335772917590707, -0.6767733290395515092722131248875499851014⟩ : ℂ)) ≤ 1e-40 := by
    rw [cmk_sub]
    refine abs_le_of_normSq_le (by norm_num) ?_
    rw [Complex.normSq_mk]
    norm_num
  have hw : Complex.abs (c7orbit 5) ≤ 0.935869 :=
    abs_le_of_approx c7approx5 c7ha5 (by norm_num)
  have h := orbit_step_approx 5 c7approx5 hw (le_trans c7ha5 (by norm_num))
    c7hb5 hd
  exact le_trans h (by norm_num)

/-- The eighth power of the index-6 approximation plus the constant,
computed exactly. -/
lemma c7hb6 : (⟨-0.555978792844060373890811335772917590707, -0.6767733290395515092722131248875499851014⟩ : ℂ) ^ 8 + c7c = ⟨6002576212940910810508026048722167750424075581486469900411727528100237906360233500697149811310539661057600195907573710960468434933416745089217456988008720485093632715032468688269393319414806477965155013805882143799892986421910007372890955704515689078581786026934178175078950097644761928072121042720638578683323864561 / 24414062500000000000000000000000000000000000000000000000000000000000000000000000000000000000000000000000000000000000000000000000000000000000000000000000000000000000000000000000000000000000000000000000000000000000000000000000000000000000000000000000000000000000000000000000000000000000000000000000000000000000000000000, -(4391495708887709355720370167581365217664254793033986939617964755420168113941543503083897498785931957907691789944560566411108805208193524172320229878734680722726045614620463562071322959378984040382936785729698959722831487709037583316479840405630599074664708979361054397546369328472691803160803605641975579888788864889 / 7019042968750000000000000000000000000000000000000000000000000000000000000000000000000000000000000000000000000000000000000000000000000000000000000000000000000000000000000000000000000000000000000000000000000000000000000000000000000000000000000000000000000000000000000000000000000000000000000000000000000000000000000000)⟩ := by
  rw [pow_eight_eq, cmk_sq, cmk_sq, cmk_sq,
    show (c7c : ℂ) = ⟨0, -2 / 2.3⟩ from rfl, cmk_add, Complex.mk.injEq]
  exact ⟨by norm_num, by norm_num⟩

/-- Certified approximation of orbit point 7. -/
lemma c7approx7 :
    Complex.abs (c7orbit 7 - (⟨0.2458655216820597067984087469556599910574, -0.6256544842992715659488916941361138063149⟩ : ℂ)) ≤ 8056e-42 := by
  have hd : Complex.abs ((⟨6002576212940910810508026048722167750424075581486469900411727528100237906360233500697149811310539661057600195907573710960468434933416745089217456988008720485093632715032468688269393319414806477965155013805882143799892986421910007372890955704515689078581786026934178175078950097644761928072121042720638578683323864561 / 24414062500000000000000000000000000000000000000000000000000000000000000000000000000000000000000000000000000000000000000000000000000000000000000000000000000000000000000000000000000000000000000000000000000000000000000000000000000000000000000000000000000000000000000000000000000000000000000000000000000000000000000000000, -(4391495708887709355720370167581365217664254793033986939617964755420168113941543503083897498785931957907691789944560566411108805208193524172320229878734680722726045614620463562071322959378984040382936785729698959722831487709037583316479840405630599074664708979361054397546369328472691803160803605641975579888788864889 / 7019042968750000000000000000000000000000000000000000000000000000000000000000000000000000000000000000000000000000000000000000000000000000000000000000000000000000000000000000000000000000000000000000000000000000000000000000000000000000000000000000000000000000000000000000000000000000000000000000000000000000000000000000)⟩ : ℂ) -
      (⟨0.2458655216820597067984087469556599910574, -0.6256544842992715659488916941361138063149⟩ : ℂ)) ≤ 1e-40 := by
    rw [cmk_sub]
    refine abs_le_of_normSq_le (by norm_num) ?_
    rw [Complex.normSq_mk]
    norm_num
  have hw : Complex.abs (c7orbit 6) ≤ 0.875864 :=
    abs_le_of_approx c7approx6 c7ha6 (by norm_num)
  have h := orbit_step_approx 6 c7approx6 hw (le_trans c7ha6 (by norm_num))
    c7hb6 hd
  exact le_trans h (by norm_num)

/-- The orbit never escapes the bailout radius within 8 iterations. -/
lemma c7bounds : ∀ k, k ≤ 7 → Complex.abs (c7orbit k) ≤ 4 := by
  intro k hk
  interval_cases k
  · rw [show c7orbit 0 = (⟨0, -2 / 2.3⟩ : ℂ) from rfl]
    refine abs_le_of_normSq_le (by norm_num) ?_
    rw [Complex.normSq_mk]
    norm_num
  · exact abs_le_of_approx c7approx1 c7ha1 (by norm_num)
  · exact abs_le_of_approx c7approx2 c7ha2 (by norm_num)
  · exact abs_le_of_approx c7approx3 c7ha3 (by norm_num)
  · exact abs_le_of_approx c7approx4 c7ha4 (by norm_num)
  · exact abs_le_of_approx c7approx5 c7ha5 (by norm_num)
  · exact abs_le_of_approx c7approx6 c7ha6 (by norm_num)
  · exact abs_le_of_approx c7approx7 c7ha7 (by norm_num)

/-- The final orbit radius lies strictly below 1. -/
lemma c7r7_lt_one : Complex.abs (c7orbit 7) < 1 :=
  lt_of_le_of_lt (abs_le_of_approx c7approx7 c7ha7 (by norm_num))
    (by norm_num : (0.673:ℝ) < 1)

/-- Lower modulus bound for the index-7 approximation point. -/
lemma c7la7 : (0.67223 : ℝ) ≤ Complex.abs (⟨0.2458655216820597067984087469556599910574, -0.6256544842992715659488916941361138063149⟩ : ℂ) := by
  refine le_abs_of_sq_le_normSq (by norm_num) ?_
  rw [Complex.normSq_mk]
  norm_num

/-- The final orbit radius is positive. -/
lemma c7r7_pos : 0 < Complex.abs (c7orbit 7) := by
  have h := abs_ge_of_approx c7approx7
    (le_trans (by norm_num : (0.671:ℝ) + 8056e-42 ≤ 0.67223) c7la7)
  linarith

/-- Core evaluation at the ground-plane origin sample: the fractal
estimate at (0,-2,0)/2.3 is negative, the plane term is 0, and the scene
union returns the fractal term. -/
lemma c7_scene_value :
    mandelbulb (vdiv ⟨0, -2, 0⟩ 2.3) 8 4 8 < 0 ∧
    mandelbulbScene ⟨0, -2, 0⟩ = mandelbulb (vdiv ⟨0, -2, 0⟩ 2.3) 8 4 8 * 2.3 ∧
    groundPlaneTerm ⟨0, -2, 0⟩ = 0 := by
  have hval := c7_mandelbulb_value c7bounds
  have hlog : Real.log (Complex.abs (c7orbit 7)) < 0 :=
    Real.log_neg c7r7_pos c7r7_lt_one
  have hdr := c7dr_pos 8
  have hneg : mandelbulb (vdiv ⟨0, -2, 0⟩ 2.3) 8 4 8 < 0 := by
    rw [hval]
    apply div_neg_of_neg_of_pos ?_ hdr
    nlinarith [mul_pos (neg_pos.2 hlog) c7r7_pos]
  have hg : groundPlaneTerm ⟨0, -2, 0⟩ = 0 := by
    rw [groundPlaneTerm_eq]
    show (-2:ℝ) + 2 = 0
    norm_num
  have hscene : mandelbulbScene ⟨0, -2, 0⟩ =
      sdfUnion (mbFractalTerm ⟨0, -2, 0⟩) (groundPlaneTerm ⟨0, -2, 0⟩) := rfl
  refine ⟨hneg, ?_, hg⟩
  rw [hscene, hg, sdfUnion, mbFractalTerm, min_eq_left (by nlinarith)]

/-- Claim C7, counterexample: the scene distance at (0,-2,0) is not 0,
contrary to the testable property stated in the spec. -/
theorem mandelbulbScene_at_ground_origin_ne_zero :
    mandelbulbScene ⟨0, -2, 0⟩ ≠ 0 := by
  obtain ⟨hneg, heq, -⟩ := c7_scene_value
  rw [heq]
  nlinarith

/-- Claim C7, amended: at (0,-2,0) the plane sub-distance is 0, but the
fractal distance estimate at (0,-2,0)/2.3 is strictly negative (the
orbit stays below the bailout radius for all 8 iterations and its final
radius is below 1, so the estimator returns a negative logarithm), and
the union therefore returns the negative scale-compensated fractal term
rather than 0. -/
theorem mandelbulbScene_at_ground_origin_negative :
    mandelbulbScene ⟨0, -2, 0⟩ < 0 ∧
    mandelbulbScene ⟨0, -2, 0⟩ = mandelbulb (vdiv ⟨0, -2, 0⟩ 2.3) 8 4 8 * 2.3 ∧
    groundPlaneTerm ⟨0, -2, 0⟩ = 0 := by
  obtain ⟨hneg, heq, hg⟩ := c7_scene_value
  refine ⟨?_, heq, hg⟩
  rw [heq]
  nlinarith

/-- Claim C1: the fractal estimator follows the escape-time algorithm of
the spec exactly: same initialization, same per-step updates, same early
escape once r exceeds bail, and the same 0.5 * ln(r) * r / dr return. -/
theorem mandelbulb_follows_spec :
    ∀ (pos : Vec3) (iterations : ℕ) (bail power : ℝ),
      mandelbulb pos iterations bail power = mandelbulbSpec pos iterations bail power := by
  intro pos iterations bail power
  unfold mandelbulb mandelbulbSpec
  rw [mbLoop_eq_specLoop]

end SDF
